import Mathlib


/-!
Shallow embedding of `converter/pdf_to_pptx.py` (pdf-to-pptx repository).

The embedding follows the Python source function by function:

* `hex_to_rgb` embeds the hex-color resolver (source lines 182-192), on top of a
  faithful model of Python's lenient `int(s, 16)` parser (whitespace, sign,
  underscores and an `0x` prefix are tolerated).
* `rawBox` embeds the bounding-box computation of `create_slide_from_ai_data`
  (source lines 241-267): percentage scaling, minimum-size bumps and the
  boundary clamps, with `pytrunc` modelling Python's `int()` truncation.
* `create_slide_from_ai_data` and its helpers embed the slide reconstructor
  (source lines 195-345) over a JSON value type `JVal`, in an `Except PyErr`
  monad that models the Python exceptions the dynamically typed code can raise
  (plus the small validations python-pptx performs on colors, levels, flags).
* `runModels` embeds the retry/model-fallback loop of
  `analyze_slide_with_gemini` (source lines 134-179); the network call,
  markdown-fence stripping and JSON parsing of one attempt are abstracted into
  an `ApiOutcome` oracle, since the claims quantify over those outcomes.
* `create_pptx_from_pdf_with_ai` embeds the driver's per-page loop
  (source lines 391-424) over a list of extraction results.

Python numbers are modelled by `PyQ`, an unnormalised exact fraction: a
denominator of 1 plays the role of a Python `int`, any other denominator the
role of a `float` (float rounding is idealised as exact arithmetic; all the
arithmetic the source performs on these values is sign/compare/truncate, where
the idealisation is harmless).
-/

/-- A Python number: an unnormalised fraction.  `den = 1` models a Python
`int`; other denominators model `float`s (with exact instead of binary
floating-point arithmetic). -/
structure PyQ where
  num : ℤ
  den : ℕ
deriving DecidableEq

/-- Build the Python int `n`. -/
def PyQ.int (n : ℤ) : PyQ := ⟨n, 1⟩

/-- Truncation toward zero, modelling Python's `int()` applied to a number. -/
def pytrunc (q : PyQ) : ℤ :=
  Int.tdiv q.num (q.den : ℤ)

/-- Comparison `a < b` of two Python numbers (cross multiplication; the
denominators produced by this development are positive). -/
def pqLt (a b : PyQ) : Bool :=
  a.num * (b.den : ℤ) < b.num * (a.den : ℤ)

/-- Python `max(a, b)`: returns `b` exactly when `b > a` (first argument on
ties), preserving the representation of the returned operand. -/
def pqMax (a b : PyQ) : PyQ :=
  if pqLt a b then b else a

/-- Python `min(a, b)`: returns `b` exactly when `b < a` (first argument on
ties). -/
def pqMin (a b : PyQ) : PyQ :=
  if pqLt b a then b else a

/-- Python `q / 100` (true division: always produces a float). -/
def pqDiv100 (q : PyQ) : PyQ :=
  ⟨q.num, q.den * 100⟩

/-- Python `q * n` for an integer `n` (used with the slide dimensions). -/
def pqMulInt (q : PyQ) (n : ℤ) : PyQ :=
  ⟨q.num * n, q.den⟩

/-- Python `q - 1`. -/
def pqSub1 (q : PyQ) : PyQ :=
  ⟨q.num - (q.den : ℤ), q.den⟩

/-- The ASCII whitespace characters stripped by Python's `str.strip()` and
tolerated around `int()` literals. -/
def isPyWS (c : Char) : Bool :=
  c = ' ' || c = '\t' || c = '\n' || c = '\x0d' || c = '\x0b' || c = '\x0c'

/-- Python `str.strip()` on a character list: drop whitespace on both ends. -/
def pyStripChars (cs : List Char) : List Char :=
  ((cs.dropWhile isPyWS).reverse.dropWhile isPyWS).reverse

/-- Python `str.strip()`. -/
def pyStripStr (s : String) : String :=
  String.mk (pyStripChars s.toList)

/-- Digit value of a character for Python `int()`: decimal digits always,
hex letters only when `hexBase` is true. -/
def digitVal? (hexBase : Bool) (c : Char) : Option ℕ :=
  if '0' ≤ c ∧ c ≤ '9' then some (c.toNat - 48)
  else if hexBase then
    if 'a' ≤ c ∧ c ≤ 'f' then some (c.toNat - 87)
    else if 'A' ≤ c ∧ c ≤ 'F' then some (c.toNat - 55)
    else none
  else none

/-- Digit-run loop of Python `int()`: single underscores are allowed between
digits, never doubled and never trailing. -/
def digitsLoop (hexBase : Bool) (base : ℕ) : ℕ → List Char → Option ℕ
  | acc, [] => some acc
  | acc, c :: rest =>
    if c = '_' then
      match rest with
      | [] => none
      | d :: rest2 =>
        match digitVal? hexBase d with
        | some v => digitsLoop hexBase base (base * acc + v) rest2
        | none => none
    else
      match digitVal? hexBase c with
      | some v => digitsLoop hexBase base (base * acc + v) rest
      | none => none

/-- A nonempty digit run (no leading underscore). -/
def parseDigitRun (hexBase : Bool) (base : ℕ) (cs : List Char) : Option ℕ :=
  match cs with
  | [] => none
  | c :: rest =>
    match digitVal? hexBase c with
    | some v => digitsLoop hexBase base v rest
    | none => none

/-- Unsigned part of a Python `int()` literal: an optional `0x`/`0X` prefix
(hex base only, optionally followed by one underscore), then a digit run. -/
def parseUnsignedPy (hexBase : Bool) (base : ℕ) (cs : List Char) : Option ℕ :=
  match cs with
  | c :: x :: rest =>
    if c = '0' ∧ hexBase = true ∧ (x = 'x' ∨ x = 'X') then
      if rest.head? = some '_' then parseDigitRun hexBase base rest.tail
      else parseDigitRun hexBase base rest
    else parseDigitRun hexBase base (c :: x :: rest)
  | _ => parseDigitRun hexBase base cs

/-- Python `int(s, base)` on a character list: strip whitespace, optional
sign, unsigned literal.  Returns `none` where Python raises `ValueError`. -/
def pyIntCore (hexBase : Bool) (base : ℕ) (cs0 : List Char) : Option ℤ :=
  match pyStripChars cs0 with
  | [] => none
  | c :: rest =>
    if c = '+' then (parseUnsignedPy hexBase base rest).map Int.ofNat
    else if c = '-' then (parseUnsignedPy hexBase base rest).map (fun n => -(n : ℤ))
    else (parseUnsignedPy hexBase base (c :: rest)).map Int.ofNat

/-- Python `int(s, 16)`. -/
def pyIntHex? (cs : List Char) : Option ℤ :=
  pyIntCore true 16 cs

/-- Python `int(s)` (base 10), used by the font-size fallback parser. -/
def pyIntDec? (s : String) : Option ℤ :=
  pyIntCore false 10 s.toList

/-- Embedding of `hex_to_rgb` (source lines 182-192): falsy input gives black,
then all leading `#` are stripped (Python `lstrip('#')`), and a 6-character
remainder is parsed in 2-character pairs by Python's `int(·, 16)`; any
`ValueError` gives black. -/
def hex_to_rgb (s : String) : ℤ × ℤ × ℤ :=
  if s.toList = [] then (0, 0, 0)
  else if (s.toList.dropWhile (· = '#')).length = 6 then
    match pyIntHex? ((s.toList.dropWhile (· = '#')).take 2),
      pyIntHex? (((s.toList.dropWhile (· = '#')).drop 2).take 2),
      pyIntHex? ((s.toList.dropWhile (· = '#')).drop 4) with
    | some r, some g, some b => (r, g, b)
    | _, _, _ => (0, 0, 0)
  else (0, 0, 0)

/-- A bounding box in EMU (english metric units), as python-pptx uses. -/
structure Box where
  left : ℤ
  top : ℤ
  width : ℤ
  height : ℤ
deriving DecidableEq

/-- Embedding of the box computation of `create_slide_from_ai_data`
(source lines 241-267).  Arguments are the four resolved percentage values and
the slide dimensions in EMU.  Constants: `Inches(1) = 914400`,
`Inches(2) = 1828800`, `Inches(0.4) = 365760`, `Inches(0.6) = 548640`,
`Inches(0.2) = 182880`. -/
def rawBox (xp yp wp hp : PyQ) (W H : ℤ) : Box :=
  let left0 := pytrunc (pqMulInt (pqDiv100 xp) W)
  let top0 := pytrunc (pqMulInt (pqDiv100 yp) H)
  let width0 := pytrunc (pqMulInt (pqDiv100 wp) W)
  let height0 := pytrunc (pqMulInt (pqDiv100 hp) H)
  let width1 := if width0 < 914400 then 1828800 else width0
  let height1 := if height0 < 365760 then 548640 else height0
  let left1 := if left0 < 0 then 182880 else left0
  let top1 := if top0 < 0 then 182880 else top0
  let width2 := if left1 + width1 > W then W - left1 - 182880 else width1
  let height2 := if top1 + height1 > H then H - top1 - 182880 else height1
  ⟨left1, top1, width2, height2⟩

/-! ## JSON values and Python dynamic semantics -/

/-- A parsed JSON value, as `json.loads` produces and the reconstructor
consumes.  `jnum` carries a `PyQ` (`den = 1` for a Python int). -/
inductive JVal where
  | jnull
  | jbool (b : Bool)
  | jnum (q : PyQ)
  | jstr (s : String)
  | jarr (xs : List JVal)
  | jobj (fs : List (String × JVal))

/-- The Python exceptions the reconstructor can raise. -/
inductive PyErr where
  | attributeError
  | typeError
  | valueError
deriving DecidableEq

/-- Python truthiness of a JSON value. -/
def pyTruthy : JVal → Bool
  | .jnull => false
  | .jbool b => b
  | .jnum q => q.num ≠ 0
  | .jstr s => s ≠ ""
  | .jarr xs => !xs.isEmpty
  | .jobj fs => !fs.isEmpty

/-- First binding of a key in an object's field list. -/
def jlookup : List (String × JVal) → String → Option JVal
  | [], _ => none
  | (k, v) :: rest, key => if k = key then some v else jlookup rest key

/-- Python `d.get(key, default)`: raises `AttributeError` when `d` is not a
dict. -/
def jGetE (v : JVal) (key : String) (dflt : JVal) : Except PyErr JVal :=
  match v with
  | .jobj fs => .ok ((jlookup fs key).getD dflt)
  | _ => .error .attributeError

/-- Use of a JSON value as a number (division, comparison with a number):
bools are ints in Python; anything non-numeric raises `TypeError`. -/
def asNumQ : JVal → Except PyErr PyQ
  | .jnum q => .ok q
  | .jbool b => .ok (.int (if b then 1 else 0))
  | _ => .error .typeError

/-- The function `hex_to_rgb` applied to an arbitrary JSON value: falsy values return
black via the `if not hex_color` guard; truthy non-strings raise
`AttributeError` at `.lstrip`. -/
def hex_to_rgbJ (v : JVal) : Except PyErr (ℤ × ℤ × ℤ) :=
  if pyTruthy v = false then .ok (0, 0, 0)
  else
    match v with
    | .jstr s => .ok (hex_to_rgb s)
    | _ => .error .attributeError

/-- Validation performed by python-pptx `RGBColor(r, g, b)`: each component
must lie in `[0, 255]`, otherwise `ValueError`. -/
def rgbColorE (t : ℤ × ℤ × ℤ) : Except PyErr (ℤ × ℤ × ℤ) :=
  if 0 ≤ t.1 ∧ t.1 ≤ 255 ∧ 0 ≤ t.2.1 ∧ t.2.1 ≤ 255 ∧ 0 ≤ t.2.2 ∧ t.2.2 ≤ 255 then .ok t
  else .error .valueError

/-- Validation performed by the python-pptx `font.bold` / `font.italic`
setters: only `True`, `False` or `None` are accepted. -/
def asFlagOpt : JVal → Except PyErr (Option Bool)
  | .jbool b => .ok (some b)
  | .jnull => .ok none
  | _ => .error .valueError

/-- Validation performed by the python-pptx `paragraph.level` setter: the
value must be a Python `int` (modelled as `den = 1`) in `0..8`. -/
def setLevelE (q : PyQ) : Except PyErr ℤ :=
  if q.den = 1 ∧ 0 ≤ q.num ∧ q.num ≤ 8 then .ok q.num
  else .error .valueError

/-- Python `text.split('\n')` on a character list. -/
def splitNl : List Char → List (List Char)
  | [] => [[]]
  | '\n' :: rest => [] :: splitNl rest
  | c :: rest =>
    match splitNl rest with
    | g :: gs => (c :: g) :: gs
    | [] => [[c]]

/-- Source line 275: `text.split('\n') if '\n' in text else [text]`. -/
def pySplitLines (t : String) : List String :=
  if t.toList.contains '\n' then (splitNl t.toList).map String.mk else [t]

/-- The characters of the `lstrip('•-* ')` set at source line 287. -/
def bulletChars : List Char := ['•', '-', '*', ' ']

/-- Source line 285: the line starts with a bullet glyph. -/
def isBulletLine (l : String) : Bool :=
  match l.toList with
  | c :: _ => c = '•' || c = '-' || c = '*'
  | [] => false

/-- Source lines 285-287: strip the leading run of bullet characters from a
bullet line, then strip whitespace. -/
def resolveLine (l : String) : String :=
  if isBulletLine l then pyStripStr (String.mk (l.toList.dropWhile (· ∈ bulletChars)))
  else l

/-- Paragraph alignment. -/
inductive Align where
  | left
  | center
  | right
deriving DecidableEq

/-- Source lines 295-301: alignment from the style value (tolerates any
type; only the exact strings `center` / `right` change the default). -/
def pyEqStr (v : JVal) (s : String) : Bool :=
  match v with
  | .jstr t => t = s
  | _ => false

/-- Resolve the paragraph alignment from `style.get("alignment", "left")`. -/
def resolveAlign (aJ : JVal) : Align :=
  if pyEqStr aJ "center" then .center
  else if pyEqStr aJ "right" then .right
  else .left

/-- Python `font_size.replace('pt', '')` on a character list: remove all
non-overlapping occurrences of `pt`, left to right. -/
def stripPtAll : List Char → List Char
  | 'p' :: 't' :: rest => stripPtAll rest
  | c :: rest => c :: stripPtAll rest
  | [] => []

/-- Source lines 312-331: resolve the font size.  A string is parsed with
`int` after removing `pt` (default 18 on failure); type-specific floors and
ceilings apply, then the value is clamped into `[10, 60]`.  A value that is
neither string nor number raises `TypeError` at the first `min`/`max`. -/
def resolveFontSize (fsJ etJ : JVal) : Except PyErr PyQ := do
  let fs1 : JVal :=
    match fsJ with
    | .jstr s => .jnum (.int ((pyIntDec? (String.mk (stripPtAll s.toList))).getD 18))
    | v => v
  let q ← asNumQ fs1
  let q :=
    if pyEqStr etJ "title" then pqMax q (.int 32)
    else if pyEqStr etJ "subtitle" then pqMax q (.int 24)
    else if pyEqStr etJ "heading" then pqMax q (.int 22)
    else if pyEqStr etJ "caption" then pqMin q (.int 14)
    else q
  .ok (pqMax (.int 10) (pqMin (.int 60) q))

/-- Source lines 304-305: decide the indent level.  `bullet_level > 0` is
evaluated first and raises `TypeError` on a non-numeric value; when the
condition holds, `max(0, (bullet_level or 1) - 1)` is assigned to the
paragraph level (with the python-pptx validation of `setLevelE`). -/
def resolveLevel (blJ etJ : JVal) (isB : Bool) : Except PyErr ℤ := do
  let blq ← asNumQ blJ
  let gt0 := pqLt (.int 0) blq
  if gt0 || isB || pyEqStr etJ "bullet" then
    let base := if pyTruthy blJ then blq else .int 1
    setLevelE (pqMax (.int 0) (pqSub1 base))
  else .ok 0

/-- One text run (python-pptx `run`): text, font size in points, RGB color,
bold/italic flags (`none` models python-pptx `None`), font name. -/
structure TRun where
  text : String
  size : PyQ
  color : ℤ × ℤ × ℤ
  bold : Option Bool
  italic : Option Bool
  name : String
deriving DecidableEq

/-- One paragraph: alignment, indent level, runs. -/
structure Para where
  alignment : Align
  level : ℤ
  runs : List TRun
deriving DecidableEq

/-- The default empty paragraph every new python-pptx text box carries. -/
def defaultPara : Para := ⟨.left, 0, []⟩

/-- One text box: bounding box and paragraphs. -/
structure TextBox where
  box : Box
  paras : List Para
deriving DecidableEq

/-- Slide background: the full-bleed picture (with the slide dimensions it
covers) or a solid fill color. -/
inductive Background where
  | picture (w h : ℤ)
  | color (rgb : ℤ × ℤ × ℤ)
deriving DecidableEq

/-- One generated slide. -/
structure Slide where
  background : Background
  boxes : List TextBox
deriving DecidableEq

/-- Source lines 307-343: build one run from the resolved line text and the
style object (font size, color, bold, italic, fixed font name). -/
def mkRun (line : String) (styleJ etJ : JVal) : Except PyErr TRun := do
  let fsJ ← jGetE styleJ "font_size" (.jnum (.int 18))
  let size ← resolveFontSize fsJ etJ
  let fcJ ← jGetE styleJ "font_color" (.jstr "#000000")
  let rgb0 ← hex_to_rgbJ fcJ
  let rgb ← rgbColorE rgb0
  let boldJ ← jGetE styleJ "bold" (.jbool false)
  let bold ← asFlagOpt (if pyTruthy boldJ then boldJ
    else .jbool (pyEqStr etJ "title" || pyEqStr etJ "heading"))
  let italJ ← jGetE styleJ "italic" (.jbool false)
  let ital ← asFlagOpt italJ
  .ok ⟨line, size, rgb, bold, ital, "Arial"⟩

/-- Source lines 279-343: the per-line loop.  Each pair is `(i, line)` from
`enumerate(lines)`; the accumulator starts as `[defaultPara]` (the text box's
built-in paragraph), which line 0 overwrites (`text_frame.paragraphs[0]`)
while later lines append (`add_paragraph`). -/
def lineLoop (styleJ blJ etJ : JVal) : List (Nat × String) → List Para → Except PyErr (List Para)
  | [], acc => .ok acc
  | (i, rawLine) :: rest, acc =>
    if pyStripStr rawLine = "" then lineLoop styleJ blJ etJ rest acc
    else do
      let alignJ ← jGetE styleJ "alignment" (.jstr "left")
      let lvl ← resolveLevel blJ etJ (isBulletLine (pyStripStr rawLine))
      let run ← mkRun (resolveLine (pyStripStr rawLine)) styleJ etJ
      if i = 0 then
        lineLoop styleJ blJ etJ rest (acc.set 0 ⟨resolveAlign alignJ, lvl, [run]⟩)
      else lineLoop styleJ blJ etJ rest (acc ++ [⟨resolveAlign alignJ, lvl, [run]⟩])

/-- Python `enumerate` starting at `k`. -/
def pyEnumFrom {α : Type} (k : ℕ) : List α → List (ℕ × α)
  | [] => []
  | x :: xs => (k, x) :: pyEnumFrom (k + 1) xs

/-- The paragraphs produced for one element's text (split, enumerate, line
loop over the initial default paragraph). -/
def elemParas (text : String) (styleJ blJ etJ : JVal) : Except PyErr (List Para) :=
  lineLoop styleJ blJ etJ (pyEnumFrom 0 (pySplitLines text)) [defaultPara]

/-- Equality of `Except` results is decidable when both components are. -/
instance {ε α : Type} [DecidableEq ε] [DecidableEq α] : DecidableEq (Except ε α) := fun a b =>
  match a, b with
  | .ok x, .ok y =>
    if h : x = y then isTrue (by rw [h]) else isFalse (fun e => h (by cases e; rfl))
  | .error x, .error y =>
    if h : x = y then isTrue (by rw [h]) else isFalse (fun e => h (by cases e; rfl))
  | .ok _, .error _ => isFalse (fun e => Except.noConfusion e)
  | .error _, .ok _ => isFalse (fun e => Except.noConfusion e)

/-- All run texts of a paragraph list, in order. -/
def parasTexts (ps : List Para) : List String :=
  (ps.map (fun p => p.runs.map (fun r => r.text))).flatten

/-- Source lines 241-267 with the field accesses of lines 242-245: resolve
the four percentages (defaults 5, 5, 90, 15) and compute the box. -/
def elementBox (posJ : JVal) (W H : ℤ) : Except PyErr Box := do
  let xJ ← jGetE posJ "x_percent" (.jnum (.int 5))
  let xq ← asNumQ xJ
  let yJ ← jGetE posJ "y_percent" (.jnum (.int 5))
  let yq ← asNumQ yJ
  let wJ ← jGetE posJ "width_percent" (.jnum (.int 90))
  let wq ← asNumQ wJ
  let hJ ← jGetE posJ "height_percent" (.jnum (.int 15))
  let hq ← asNumQ hJ
  .ok (rawBox xq yq wq hq W H)

/-- Source lines 233-343: process one element.  Returns `none` when the
element is skipped because its stripped text is empty (line 235). -/
def processElem (elemJ : JVal) (W H : ℤ) : Except PyErr (Option TextBox) := do
  let tJ ← jGetE elemJ "text" (.jstr "")
  let t0 ← (match tJ with
    | .jstr s => Except.ok s
    | _ => Except.error PyErr.attributeError)
  let text := pyStripStr t0
  if text = "" then .ok none
  else do
    let posJ ← jGetE elemJ "position" (.jobj [])
    let styleJ ← jGetE elemJ "style" (.jobj [])
    let box ← elementBox posJ W H
    let blJ ← jGetE elemJ "bullet_level" (.jnum (.int 0))
    let etJ ← jGetE elemJ "type" (.jstr "body")
    let paras ← elemParas text styleJ blJ etJ
    .ok (some ⟨box, paras⟩)

/-- Python `for elem in elements`: iterating a list yields its items, a
string its characters, a dict its keys; other values raise `TypeError`. -/
def pyIterate : JVal → Except PyErr (List JVal)
  | .jarr xs => .ok xs
  | .jstr s => .ok (s.toList.map (fun c => .jstr (String.singleton c)))
  | .jobj fs => .ok (fs.map (fun kv => .jstr kv.1))
  | _ => .error .typeError

/-- The element loop of source lines 233-343. -/
def processAll (W H : ℤ) : List JVal → Except PyErr (List TextBox)
  | [] => .ok []
  | e :: rest => do
    match ← processElem e W H with
    | some tb => do
      let tbs ← processAll W H rest
      .ok (tb :: tbs)
    | none => processAll W H rest

/-- Source lines 201-228: the slide background.  With a background image it
is the full-bleed picture; otherwise the solid fill resolved from
`background_color` (default `#FFFFFF`). -/
def bgResolve (sd : JVal) (W H : ℤ) (hasBg : Bool) : Except PyErr Background :=
  if hasBg then .ok (.picture W H)
  else do
    let bcJ ← jGetE sd "background_color" (.jstr "#FFFFFF")
    let rgb0 ← hex_to_rgbJ bcJ
    let rgb ← rgbColorE rgb0
    .ok (.color rgb)

/-- Embedding of `create_slide_from_ai_data` (source lines 195-345).
`hasBg` is whether a background image was supplied. -/
def create_slide_from_ai_data (sd : JVal) (W H : ℤ) (hasBg : Bool) : Except PyErr Slide := do
  let bg ← bgResolve sd W H hasBg
  let elsJ ← jGetE sd "elements" (.jarr [])
  let els ← pyIterate elsJ
  let boxes ← processAll W H els
  .ok ⟨bg, boxes⟩

/-! ## Content extractor: retry / fallback loop -/

/-- Outcome of one attempt of `analyze_slide_with_gemini` (source lines
136-176): the API call plus fence stripping and `json.loads`.  `success`
carries the parsed slide data; `badJSON` is a `json.JSONDecodeError`;
`rateLimit` is an exception whose text matches the 429 / RESOURCE_EXHAUSTED
signature; `otherError` is any other exception. -/
inductive ApiOutcome where
  | success (data : JVal)
  | badJSON
  | rateLimit
  | otherError

/-- Observable events of the extractor loop: an API call to a model at a
0-based attempt index, or a `time.sleep` of the given seconds. -/
inductive Event where
  | call (model : String) (attempt : ℕ)
  | wait (seconds : ℕ)
deriving DecidableEq

/-- Source line 81: `max_retries=3`. -/
def max_retries : ℕ := 3

/-- The attempt loop of one model (source lines 135-176), over the list of
remaining attempt indices (`for attempt in range(max_retries)`).  Returns the
emitted events and `some r` when the whole function returns (`r = some data`
on success at line 161, `r = none` on a JSON parse failure at line 165), or
`none` when the loop falls through to the next model (non-rate-limit error at
line 176, or attempts exhausted; a rate-limit error sleeps `15 * (attempt+1)`
seconds at lines 171-173 and retries). -/
def runAttempts (respond : String → ℕ → ApiOutcome) (m : String) :
    List ℕ → List Event × Option (Option JVal)
  | [] => ([], none)
  | attempt :: restAtt =>
    match respond m attempt with
    | .success d => ([.call m attempt], some (some d))
    | .badJSON => ([.call m attempt], some none)
    | .otherError => ([.call m attempt], none)
    | .rateLimit =>
      (.call m attempt :: .wait (15 * (attempt + 1)) :: (runAttempts respond m restAtt).1,
        (runAttempts respond m restAtt).2)

/-- The model loop of source lines 134-179: try each model in order; a
returned result stops everything, otherwise continue with the next model;
when all models are exhausted return `None` (line 179). -/
def runModels (respond : String → ℕ → ApiOutcome) : List String → List Event × Option JVal
  | [] => ([], none)
  | m :: ms =>
    match runAttempts respond m (List.range max_retries) with
    | (evs, some r) => (evs, r)
    | (evs, none) => (evs ++ (runModels respond ms).1, (runModels respond ms).2)

/-- Source line 132: the fallback-ordered model list. -/
def gemini_models : List String :=
  ["gemini-2.5-flash-lite", "gemini-2.5-flash", "gemini-2.0-flash"]

/-- Embedding of `analyze_slide_with_gemini` (source lines 81-179): run the
model/attempt loop over the fixed model list. -/
def analyze_slide_with_gemini (respond : String → ℕ → ApiOutcome) : List Event × Option JVal :=
  runModels respond gemini_models

/-- The call/wait trace of a run that hits rate limits on attempts
`0..a-1` of model `m` and stops at attempt `a`. -/
def rlPrefixTrace (m : String) (a : ℕ) : List Event :=
  ((List.range a).map (fun j => [Event.call m j, Event.wait (15 * (j + 1))])).flatten
    ++ [Event.call m a]

/-! ## Pipeline driver -/

/-- The image-only fallback slide of source lines 411-424: a blank slide with
one full-bleed picture and no text boxes. -/
def fallbackSlide (W H : ℤ) : Slide := ⟨.picture W H, []⟩

/-- One iteration of the driver's page loop (source lines 401-424): `e` is
the extraction result for the 0-based page `idx`.  Mirrors
`if slide_data and slide_data.get("elements")`: a falsy or missing result, or
falsy `elements`, records page `idx+1` as failed and appends the image-only
fallback slide; otherwise the reconstructor runs with the background image. -/
def pageStep (W H : ℤ) (idx : ℕ) : Option JVal → Except PyErr (Slide × List ℕ)
  | none => .ok (fallbackSlide W H, [idx + 1])
  | some sd =>
    if pyTruthy sd then
      jGetE sd "elements" .jnull >>= fun els =>
        if pyTruthy els then
          create_slide_from_ai_data sd W H true >>= fun s => .ok (s, [])
        else .ok (fallbackSlide W H, [idx + 1])
    else .ok (fallbackSlide W H, [idx + 1])

/-- The page loop of source lines 391-429 from page index `idx`, collecting
slides in order and the failed page numbers.  (The fixed 10-second
inter-page pacing sleep of line 429 has no observable effect on the output
document and is not modelled.) -/
def drivePages (W H : ℤ) (idx : ℕ) : List (Option JVal) → Except PyErr (List Slide × List ℕ)
  | [] => .ok ([], [])
  | e :: rest =>
    pageStep W H idx e >>= fun p =>
      drivePages W H (idx + 1) rest >>= fun pr =>
        .ok (p.1 :: pr.1, p.2 ++ pr.2)

/-- Embedding of the per-page loop of `create_pptx_from_pdf_with_ai`
(source lines 389-430): `extracts` lists, page by page, the value
`analyze_slide_with_gemini` returned for that page. -/
def create_pptx_from_pdf_with_ai (extracts : List (Option JVal)) (W H : ℤ) :
    Except PyErr (List Slide × List ℕ) :=
  drivePages W H 0 extracts

/-! ## Well-formedness: a sufficient schema under which the reconstructor
cannot raise -/

/-- A key, when present, satisfies a predicate. -/
def optWF (fs : List (String × JVal)) (key : String) (p : JVal → Bool) : Bool :=
  match jlookup fs key with
  | none => true
  | some v => p v

/-- Usable as a number. -/
def numWFb : JVal → Bool
  | .jnum _ => true
  | .jbool _ => true
  | _ => false

/-- A well-formed `position` value: an object whose present percentage
fields are numeric. -/
def posWFb : JVal → Bool
  | .jobj fs =>
    optWF fs "x_percent" numWFb && optWF fs "y_percent" numWFb &&
      optWF fs "width_percent" numWFb && optWF fs "height_percent" numWFb
  | _ => false

/-- All three color components lie in the byte range. -/
def rgbInRange (t : ℤ × ℤ × ℤ) : Bool :=
  decide (0 ≤ t.1 ∧ t.1 ≤ 255 ∧ 0 ≤ t.2.1 ∧ t.2.1 ≤ 255 ∧ 0 ≤ t.2.2 ∧ t.2.2 ≤ 255)

/-- A well-formed color field: absent-like `null`, or a string whose
resolution stays in byte range (every string except ones whose lenient hex
parse yields a negative component, such as `"-1-2-3"`). -/
def colorWFb : JVal → Bool
  | .jnull => true
  | .jstr s => rgbInRange (hex_to_rgb s)
  | _ => false

/-- A well-formed font-size field: a number, bool, or any string. -/
def fsWFb : JVal → Bool
  | .jnum _ => true
  | .jbool _ => true
  | .jstr _ => true
  | _ => false

/-- A well-formed bold/italic flag: a bool or `null`. -/
def flagWFb : JVal → Bool
  | .jbool _ => true
  | .jnull => true
  | _ => false

/-- A well-formed `style` value: an object whose present fields are
well-formed (`alignment` may be anything). -/
def styleWFb : JVal → Bool
  | .jobj fs =>
    optWF fs "font_size" fsWFb && optWF fs "font_color" colorWFb &&
      optWF fs "bold" flagWFb && optWF fs "italic" flagWFb
  | _ => false

/-- A well-formed `bullet_level`: a bool or an integer in `0..9`. -/
def blWFb : JVal → Bool
  | .jnum q => decide (q.den = 1 ∧ 0 ≤ q.num ∧ q.num ≤ 9)
  | .jbool _ => true
  | _ => false

/-- A well-formed element: an object whose `text` is absent or a string, and
(when the stripped text is nonempty, so that the rest of the loop body runs)
whose `position`, `style` and `bullet_level` are well-formed; `type` may be
anything. -/
def elemWFb : JVal → Bool
  | .jobj fs =>
    match jlookup fs "text" with
    | none => true
    | some (.jstr s) =>
      if pyStripStr s = "" then true
      else
        optWF fs "position" posWFb && optWF fs "style" styleWFb &&
          optWF fs "bullet_level" blWFb
    | some _ => false
  | _ => false

/-- Slide data whose `elements` is absent or an array of well-formed
elements. -/
def elementsWFb : JVal → Bool
  | .jobj fs =>
    match jlookup fs "elements" with
    | none => true
    | some (.jarr xs) => xs.all elemWFb
    | some _ => false
  | _ => false

/-- Fully well-formed slide data: well-formed elements and a well-formed
`background_color`. -/
def sdWFb (v : JVal) : Bool :=
  elementsWFb v &&
    (match v with
     | .jobj fs => optWF fs "background_color" colorWFb
     | _ => false)

/-! ## Driver lemmas -/

/-- A page's extraction result cannot make the driver raise: either no
result, or a falsy result, or an object with well-formed elements. -/
def pageSafeb (e : Option JVal) : Bool :=
  match e with
  | none => true
  | some sd => !pyTruthy sd ||
      (match sd with
       | .jobj _ => elementsWFb sd
       | _ => false)

/-- The claim's failing-page condition: extraction returned no content, or
content whose `elements` is the empty array. -/
def extractEmpty (e : Option JVal) : Prop :=
  e = none ∨ ∃ fs, e = some (.jobj fs) ∧ jlookup fs "elements" = some (.jarr [])

/-! ## Spec-side definitions used to state the claims -/

/-- Clamp a percentage into `[0, 100]`. -/
def pqClamp01 (q : PyQ) : PyQ :=
  pqMin (pqMax q (.int 0)) (.int 100)

/-- Modelled from the spec's words for claim C3: the box computation that the
spec asserts, with each position percentage clamped into `[0, 100]` before
conversion to slide coordinates. -/
def specClampBox (xp yp wp hp : PyQ) (W H : ℤ) : Box :=
  rawBox (pqClamp01 xp) (pqClamp01 yp) (pqClamp01 wp) (pqClamp01 hp) W H

/-- The numeric value of a hexadecimal digit (0 for non-digits). -/
def hexDigitVal (c : Char) : ℕ :=
  (digitVal? true c).getD 0

/-- The string is exactly 6 hexadecimal digits. -/
def isHex6b (s : String) : Bool :=
  decide (s.toList.length = 6) && s.toList.all (fun c => (digitVal? true c).isSome)

/-- The mathematical RGB triple of a 6-hex-digit string. -/
def hexTriple (s : String) : ℤ × ℤ × ℤ :=
  match s.toList with
  | [c1, c2, c3, c4, c5, c6] =>
    (((16 * hexDigitVal c1 + hexDigitVal c2 : ℕ) : ℤ),
      ((16 * hexDigitVal c3 + hexDigitVal c4 : ℕ) : ℤ),
      ((16 * hexDigitVal c5 + hexDigitVal c6 : ℕ) : ℤ))
  | _ => (0, 0, 0)

/-- The condition under which `hex_to_rgb` actually returns a parsed triple:
after stripping all leading `#`, exactly 6 characters remain and each
2-character pair parses under Python's lenient `int(·, 16)`. -/
def pyLenientHex6 (s : String) : Bool :=
  decide ((s.toList.dropWhile (· = '#')).length = 6) &&
    (pyIntHex? ((s.toList.dropWhile (· = '#')).take 2)).isSome &&
    (pyIntHex? (((s.toList.dropWhile (· = '#')).drop 2).take 2)).isSome &&
    (pyIntHex? ((s.toList.dropWhile (· = '#')).drop 4)).isSome

/-- Modelled from the spec's words for claim C7: the string is exactly 6 hex
digits after removing one leading `#`. -/
def isSixHexAfterOneHash (s : String) : Bool :=
  match s.toList with
  | '#' :: r => decide (r.length = 6) && r.all (fun c => (digitVal? true c).isSome)
  | r => decide (r.length = 6) && r.all (fun c => (digitVal? true c).isSome)

/-- The slide data of claim C5's failing input: one element whose
`font_size` is JSON `null`. -/
def c5FailingInput : JVal :=
  .jobj [("elements", .jarr [.jobj [("text", .jstr "hi"),
    ("style", .jobj [("font_size", .jnull)])]])]

/-- A fully well-formed slide data value, used to witness claim C5. -/
def c5WitnessInput : JVal :=
  .jobj [("background_color", .jstr "#112233"),
    ("elements", .jarr [.jobj [
      ("type", .jstr "title"),
      ("text", .jstr "Hello\n• World"),
      ("position", .jobj [("x_percent", .jnum (.int 10)), ("y_percent", .jnum (.int 5)),
        ("width_percent", .jnum (.int 80)), ("height_percent", .jnum (.int 20))]),
      ("style", .jobj [("font_size", .jstr "40pt"), ("font_color", .jstr "#FF00AA"),
        ("bold", .jbool true), ("italic", .jnull)]),
      ("bullet_level", .jnum (.int 2))]])]

/-- A 5-page extraction scenario with an empty `elements` array on page 3 and
no result on page 5, used to witness claim C9. -/
def c9Extracts : List (Option JVal) :=
  [some (.jobj [("elements", .jarr [.jobj [("text", .jstr "a")]])]),
    some (.jobj [("elements", .jarr [.jobj [("text", .jstr "b")]])]),
    some (.jobj [("elements", .jarr [])]),
    some (.jobj [("elements", .jarr [.jobj [("text", .jstr "d")]])]),
    none]

/-! ## Theorems -/

/-! ## Totality of the reconstructor on well-formed data -/

theorem ebind_ok {ε α β : Type} (a : α) (f : α → Except ε β) :
    (Except.ok a >>= f : Except ε β) = f a := rfl

theorem jGetE_obj (fs : List (String × JVal)) (key : String) (dflt : JVal) :
    jGetE (.jobj fs) key dflt = .ok ((jlookup fs key).getD dflt) := rfl

theorem optWF_getD (fs : List (String × JVal)) (key : String) (p : JVal → Bool) (d : JVal)
    (h : optWF fs key p = true) (hd : p d = true) :
    p ((jlookup fs key).getD d) = true := by
  unfold optWF at h
  cases hl : jlookup fs key with
  | none => simpa using hd
  | some v => rw [hl] at h; simpa using h

theorem asNumQ_ok (v : JVal) (h : numWFb v = true) : ∃ q, asNumQ v = .ok q := by
  cases v with
  | jnum q => exact ⟨q, rfl⟩
  | jbool b => exact ⟨_, rfl⟩
  | jnull => simp [numWFb] at h
  | jstr s => simp [numWFb] at h
  | jarr xs => simp [numWFb] at h
  | jobj fs => simp [numWFb] at h

theorem resolveFontSize_ok (fsJ etJ : JVal) (h : fsWFb fsJ = true) :
    ∃ q, resolveFontSize fsJ etJ = .ok q := by
  cases fsJ with
  | jnum q => exact ⟨_, rfl⟩
  | jbool b => exact ⟨_, rfl⟩
  | jstr s => exact ⟨_, rfl⟩
  | jnull => simp [fsWFb] at h
  | jarr xs => simp [fsWFb] at h
  | jobj fs => simp [fsWFb] at h

theorem hex_to_rgbJ_ok (v : JVal) (h : colorWFb v = true) :
    ∃ t, hex_to_rgbJ v = .ok t ∧ rgbColorE t = .ok t := by
  cases v with
  | jnull => exact ⟨(0, 0, 0), rfl, rfl⟩
  | jstr s =>
    by_cases hs : s = ""
    · subst hs; exact ⟨(0, 0, 0), rfl, rfl⟩
    · refine ⟨hex_to_rgb s, ?_, ?_⟩
      · have ht : pyTruthy (.jstr s) = true := by simp [pyTruthy, hs]
        simp [hex_to_rgbJ, ht]
      · have hr := of_decide_eq_true (by simpa [colorWFb, rgbInRange] using h)
        unfold rgbColorE
        rw [if_pos hr]
  | jbool b => simp [colorWFb] at h
  | jnum q => simp [colorWFb] at h
  | jarr xs => simp [colorWFb] at h
  | jobj fs => simp [colorWFb] at h

theorem asFlagOpt_ok (v : JVal) (h : flagWFb v = true) : ∃ ob, asFlagOpt v = .ok ob := by
  cases v with
  | jbool b => exact ⟨some b, rfl⟩
  | jnull => exact ⟨none, rfl⟩
  | jnum q => simp [flagWFb] at h
  | jstr s => simp [flagWFb] at h
  | jarr xs => simp [flagWFb] at h
  | jobj fs => simp [flagWFb] at h

theorem boldV_ok (v : JVal) (x : Bool) (h : flagWFb v = true) :
    ∃ ob, asFlagOpt (if pyTruthy v then v else .jbool x) = .ok ob := by
  by_cases ht : pyTruthy v = true
  · rw [if_pos ht]; exact asFlagOpt_ok v h
  · rw [if_neg ht]; exact ⟨some x, rfl⟩

theorem mkRun_ok (line : String) (styleJ etJ : JVal) (h : styleWFb styleJ = true) :
    ∃ r, mkRun line styleJ etJ = .ok r ∧ r.text = line := by
  cases styleJ with
  | jobj fs =>
    simp only [styleWFb, Bool.and_eq_true] at h
    obtain ⟨⟨⟨h1, h2⟩, h3⟩, h4⟩ := h
    have hfs : fsWFb ((jlookup fs "font_size").getD (.jnum (.int 18))) = true :=
      optWF_getD _ _ _ _ h1 rfl
    have hfc : colorWFb ((jlookup fs "font_color").getD (.jstr "#000000")) = true :=
      optWF_getD _ _ _ _ h2 (by decide)
    have hb : flagWFb ((jlookup fs "bold").getD (.jbool false)) = true :=
      optWF_getD _ _ _ _ h3 rfl
    have hi : flagWFb ((jlookup fs "italic").getD (.jbool false)) = true :=
      optWF_getD _ _ _ _ h4 rfl
    obtain ⟨q, hq⟩ := resolveFontSize_ok _ etJ hfs
    obtain ⟨t, ht1, ht2⟩ := hex_to_rgbJ_ok _ hfc
    obtain ⟨ob, hob⟩ := boldV_ok _ (pyEqStr etJ "title" || pyEqStr etJ "heading") hb
    obtain ⟨oi, hoi⟩ := asFlagOpt_ok _ hi
    refine ⟨⟨line, q, t, ob, oi, "Arial"⟩, ?_, rfl⟩
    simp only [mkRun, jGetE_obj, ebind_ok, hq, ht1, ht2, hob, hoi]
  | jnull => simp [styleWFb] at h
  | jbool b => simp [styleWFb] at h
  | jnum q => simp [styleWFb] at h
  | jstr s => simp [styleWFb] at h
  | jarr xs => simp [styleWFb] at h

theorem setLevelE_int_ok (n : ℤ) (h0 : 0 ≤ n) (h8 : n ≤ 8) : setLevelE (.int n) = .ok n := by
  unfold setLevelE PyQ.int
  rw [if_pos ⟨rfl, h0, h8⟩]

theorem resolveLevel_ok (blJ etJ : JVal) (isB : Bool) (h : blWFb blJ = true) :
    ∃ l, resolveLevel blJ etJ isB = .ok l := by
  cases blJ with
  | jbool b =>
    cases b with
    | true => exact ⟨0, rfl⟩
    | false =>
      unfold resolveLevel
      rw [show asNumQ (JVal.jbool false) = Except.ok (PyQ.int 0) from rfl, ebind_ok]
      refine ⟨0, ?_⟩
      by_cases hc : (pqLt (.int 0) (.int 0) || isB || pyEqStr etJ "bullet") = true
      · rw [if_pos hc]; rfl
      · rw [if_neg hc]
  | jnum q =>
    have h' := of_decide_eq_true (by simpa [blWFb] using h)
    obtain ⟨hden, h0, h9⟩ := h'
    obtain ⟨n, d⟩ := q
    simp only at hden h0 h9
    subst hden
    unfold resolveLevel
    simp only [asNumQ, ebind_ok]
    by_cases hn : n = 0
    · subst hn
      refine ⟨0, ?_⟩
      by_cases hc : (pqLt (.int 0) ⟨0, 1⟩ || isB || pyEqStr etJ "bullet") = true
      · rw [if_pos hc]; rfl
      · rw [if_neg hc]
    · by_cases hc : (pqLt (.int 0) ⟨n, 1⟩ || isB || pyEqStr etJ "bullet") = true
      · rw [if_pos hc]
        have ht : pyTruthy (.jnum ⟨n, 1⟩) = true := by simp [pyTruthy, hn]
        rw [if_pos ht]
        have hsub : pqSub1 ⟨n, 1⟩ = ⟨n - 1, 1⟩ := by simp [pqSub1]
        rw [hsub]
        unfold pqMax
        by_cases hlt : pqLt (.int 0) ⟨n - 1, 1⟩ = true
        · rw [if_pos hlt]
          exact ⟨n - 1, setLevelE_int_ok (n - 1) (by omega) (by omega)⟩
        · rw [if_neg hlt]
          exact ⟨0, setLevelE_int_ok 0 (by omega) (by omega)⟩
      · rw [if_neg hc]
        exact ⟨0, rfl⟩
  | jnull => simp [blWFb] at h
  | jstr s => simp [blWFb] at h
  | jarr xs => simp [blWFb] at h
  | jobj fs => simp [blWFb] at h

theorem lineLoop_ok (st blJ etJ : JVal) (hs : styleWFb st = true) (hb : blWFb blJ = true) :
    ∀ (pairs : List (ℕ × String)) (acc : List Para),
      ∃ ps, lineLoop st blJ etJ pairs acc = .ok ps := by
  cases st with
  | jobj fs =>
    intro pairs
    induction pairs with
    | nil => intro acc; exact ⟨acc, rfl⟩
    | cons pr rest ih =>
      intro acc
      obtain ⟨i, rawLine⟩ := pr
      unfold lineLoop
      by_cases he : pyStripStr rawLine = ""
      · rw [if_pos he]; exact ih acc
      · rw [if_neg he]
        rw [jGetE_obj, ebind_ok]
        obtain ⟨l, hl⟩ := resolveLevel_ok blJ etJ (isBulletLine (pyStripStr rawLine)) hb
        rw [hl, ebind_ok]
        obtain ⟨r, hr, -⟩ := mkRun_ok (resolveLine (pyStripStr rawLine)) (.jobj fs) etJ hs
        rw [hr, ebind_ok]
        by_cases hi : i = 0
        · rw [if_pos hi]; exact ih _
        · rw [if_neg hi]; exact ih _
  | jnull => simp [styleWFb] at hs
  | jbool b => simp [styleWFb] at hs
  | jnum q => simp [styleWFb] at hs
  | jstr s => simp [styleWFb] at hs
  | jarr xs => simp [styleWFb] at hs

theorem elementBox_ok (posJ : JVal) (W H : ℤ) (h : posWFb posJ = true) :
    ∃ b, elementBox posJ W H = .ok b := by
  cases posJ with
  | jobj fs =>
    simp only [posWFb, Bool.and_eq_true] at h
    obtain ⟨⟨⟨h1, h2⟩, h3⟩, h4⟩ := h
    obtain ⟨xq, hx⟩ := asNumQ_ok _ (optWF_getD fs "x_percent" numWFb (.jnum (.int 5)) h1 rfl)
    obtain ⟨yq, hy⟩ := asNumQ_ok _ (optWF_getD fs "y_percent" numWFb (.jnum (.int 5)) h2 rfl)
    obtain ⟨wq, hw⟩ := asNumQ_ok _ (optWF_getD fs "width_percent" numWFb (.jnum (.int 90)) h3 rfl)
    obtain ⟨hq2, hh⟩ :=
      asNumQ_ok _ (optWF_getD fs "height_percent" numWFb (.jnum (.int 15)) h4 rfl)
    refine ⟨rawBox xq yq wq hq2 W H, ?_⟩
    simp only [elementBox, jGetE_obj, ebind_ok, hx, hy, hw, hh]
  | jnull => simp [posWFb] at h
  | jbool b => simp [posWFb] at h
  | jnum q => simp [posWFb] at h
  | jstr s => simp [posWFb] at h
  | jarr xs => simp [posWFb] at h

theorem processElem_ok (e : JVal) (W H : ℤ) (h : elemWFb e = true) :
    ∃ o, processElem e W H = .ok o := by
  cases e with
  | jobj fs =>
    unfold elemWFb at h
    unfold processElem
    rw [jGetE_obj, ebind_ok]
    cases hlt : jlookup fs "text" with
    | none =>
      exact ⟨none, rfl⟩
    | some tv =>
      simp only [hlt] at h
      cases tv with
      | jstr s =>
        by_cases hse : pyStripStr s = ""
        · simp only [Option.getD_some, ebind_ok]
          rw [if_pos hse]
          exact ⟨none, rfl⟩
        · have h' : (if pyStripStr s = "" then true
              else optWF fs "position" posWFb && optWF fs "style" styleWFb &&
                optWF fs "bullet_level" blWFb) = true := h
          rw [if_neg hse] at h'
          simp only [Bool.and_eq_true] at h'
          obtain ⟨⟨hp, hst⟩, hbl⟩ := h'
          simp only [Option.getD_some, ebind_ok]
          rw [if_neg hse]
          rw [jGetE_obj, ebind_ok, jGetE_obj, ebind_ok]
          obtain ⟨b, hbox⟩ :=
            elementBox_ok _ W H (optWF_getD fs "position" posWFb (.jobj []) hp rfl)
          rw [hbox, ebind_ok]
          rw [jGetE_obj, ebind_ok, jGetE_obj, ebind_ok]
          obtain ⟨ps, hps⟩ :=
            lineLoop_ok _ _ ((jlookup fs "type").getD (.jstr "body"))
              (optWF_getD fs "style" styleWFb (.jobj []) hst rfl)
              (optWF_getD fs "bullet_level" blWFb (.jnum (.int 0)) hbl (by decide))
              (pyEnumFrom 0 (pySplitLines (pyStripStr s))) [defaultPara]
          unfold elemParas
          rw [hps, ebind_ok]
          exact ⟨_, rfl⟩
      | jnull => simp at h
      | jbool b => simp at h
      | jnum q => simp at h
      | jarr xs => simp at h
      | jobj fs2 => simp at h
  | jnull => simp [elemWFb] at h
  | jbool b => simp [elemWFb] at h
  | jnum q => simp [elemWFb] at h
  | jstr s => simp [elemWFb] at h
  | jarr xs => simp [elemWFb] at h

theorem processAll_ok (W H : ℤ) :
    ∀ els : List JVal, (∀ e ∈ els, elemWFb e = true) →
      ∃ bs, processAll W H els = .ok bs := by
  intro els
  induction els with
  | nil => intro _; exact ⟨[], rfl⟩
  | cons e rest ih =>
    intro hall
    obtain ⟨o, ho⟩ := processElem_ok e W H (hall e (by simp))
    obtain ⟨bs, hbs⟩ := ih (fun x hx => hall x (by simp [hx]))
    unfold processAll
    rw [ho, ebind_ok]
    cases o with
    | some tb =>
      simp only [hbs, ebind_ok]
      exact ⟨tb :: bs, rfl⟩
    | none => exact ⟨bs, hbs⟩

theorem elements_chain_ok (fs : List (String × JVal)) (W H : ℤ)
    (h : elementsWFb (.jobj fs) = true) (bg : Background) :
    ∃ s, (do
      let elsJ ← jGetE (.jobj fs) "elements" (.jarr [])
      let els ← pyIterate elsJ
      let boxes ← processAll W H els
      Except.ok (⟨bg, boxes⟩ : Slide)) = Except.ok s := by
  rw [jGetE_obj, ebind_ok]
  unfold elementsWFb at h
  cases hle : jlookup fs "elements" with
  | none => exact ⟨_, rfl⟩
  | some ev =>
    simp only [hle] at h
    cases ev with
    | jarr xs =>
      simp only [Option.getD_some]
      rw [show pyIterate (JVal.jarr xs) = Except.ok xs from rfl, ebind_ok]
      obtain ⟨bs, hbs⟩ := processAll_ok W H xs (fun e he => by
        have hall : xs.all elemWFb = true := h
        exact List.all_eq_true.mp hall e he)
      rw [hbs, ebind_ok]
      exact ⟨_, rfl⟩
    | jnull => simp at h
    | jbool b => simp at h
    | jnum q => simp at h
    | jstr s => simp at h
    | jobj fs2 => simp at h

theorem create_slide_bg_ok (sd : JVal) (W H : ℤ) (h : elementsWFb sd = true) :
    ∃ s, create_slide_from_ai_data sd W H true = .ok s := by
  cases sd with
  | jobj fs =>
    unfold create_slide_from_ai_data
    rw [show bgResolve (JVal.jobj fs) W H true = Except.ok (Background.picture W H) from rfl,
      ebind_ok]
    exact elements_chain_ok fs W H h _
  | jnull => simp [elementsWFb] at h
  | jbool b => simp [elementsWFb] at h
  | jnum q => simp [elementsWFb] at h
  | jstr s => simp [elementsWFb] at h
  | jarr xs => simp [elementsWFb] at h

theorem create_slide_wf_ok (sd : JVal) (W H : ℤ) (b : Bool) (h : sdWFb sd = true) :
    ∃ s, create_slide_from_ai_data sd W H b = .ok s := by
  simp only [sdWFb, Bool.and_eq_true] at h
  obtain ⟨hels, hbgc⟩ := h
  cases b with
  | true => exact create_slide_bg_ok sd W H hels
  | false =>
    cases sd with
    | jobj fs =>
      obtain ⟨t, ht1, ht2⟩ :=
        hex_to_rgbJ_ok _ (optWF_getD fs "background_color" colorWFb (.jstr "#FFFFFF") hbgc
          (by decide))
      have hbg : bgResolve (JVal.jobj fs) W H false = Except.ok (Background.color t) := by
        have hsh : bgResolve (JVal.jobj fs) W H false =
            (do
              let bcJ ← jGetE (JVal.jobj fs) "background_color" (JVal.jstr "#FFFFFF")
              let rgb0 ← hex_to_rgbJ bcJ
              let rgb ← rgbColorE rgb0
              Except.ok (Background.color rgb)) := rfl
        rw [hsh, jGetE_obj, ebind_ok, ht1, ebind_ok, ht2, ebind_ok]
      unfold create_slide_from_ai_data
      rw [hbg, ebind_ok]
      exact elements_chain_ok fs W H hels _
    | jnull => simp at hbgc
    | jbool b => simp at hbgc
    | jnum q => simp at hbgc
    | jstr s => simp at hbgc
    | jarr xs => simp at hbgc

theorem pageStep_empty (W H : ℤ) (idx : ℕ) (e : Option JVal) (he : extractEmpty e) :
    pageStep W H idx e = .ok (fallbackSlide W H, [idx + 1]) := by
  rcases he with rfl | ⟨fs, rfl, hle⟩
  · rfl
  · simp only [pageStep]
    by_cases ht : pyTruthy (JVal.jobj fs) = true
    · rw [if_pos ht, jGetE_obj, ebind_ok, hle]
      rfl
    · rw [if_neg ht]

theorem pageStep_ok (W H : ℤ) (idx : ℕ) (e : Option JVal) (h : pageSafeb e = true) :
    ∃ r, pageStep W H idx e = .ok r := by
  cases e with
  | none => exact ⟨_, rfl⟩
  | some sd =>
    simp only [pageStep]
    by_cases ht : pyTruthy sd = true
    · rw [if_pos ht]
      simp only [pageSafeb, ht, Bool.not_true, Bool.false_or] at h
      cases sd with
      | jobj fs =>
        rw [jGetE_obj, ebind_ok]
        by_cases hte : pyTruthy ((jlookup fs "elements").getD .jnull) = true
        · rw [if_pos hte]
          obtain ⟨s, hs⟩ := create_slide_bg_ok (.jobj fs) W H h
          rw [hs, ebind_ok]
          exact ⟨_, rfl⟩
        · rw [if_neg hte]
          exact ⟨_, rfl⟩
      | jnull => simp at h
      | jbool b => simp at h
      | jnum q => simp at h
      | jstr s => simp at h
      | jarr xs => simp at h
    · rw [if_neg ht]
      exact ⟨_, rfl⟩

theorem drivePages_ok (W H : ℤ) :
    ∀ (extracts : List (Option JVal)) (idx : ℕ),
      (∀ e ∈ extracts, pageSafeb e = true) →
      ∃ ss fs, drivePages W H idx extracts = .ok (ss, fs) ∧
        ss.length = extracts.length ∧
        ∀ j (hj : j < extracts.length), extractEmpty (extracts.get ⟨j, hj⟩) →
          ss.get? j = some (fallbackSlide W H) ∧ (idx + j + 1) ∈ fs := by
  intro extracts
  induction extracts with
  | nil =>
    intro idx _
    exact ⟨[], [], rfl, rfl, fun j hj => absurd hj (by simp)⟩
  | cons e rest ih =>
    intro idx hall
    obtain ⟨r, hstep⟩ := pageStep_ok W H idx e (hall e (by simp))
    obtain ⟨ss, fs, hdr, hlen, hget⟩ := ih (idx + 1) (fun x hx => hall x (by simp [hx]))
    refine ⟨r.1 :: ss, r.2 ++ fs, ?_, by simpa using hlen, ?_⟩
    · unfold drivePages
      rw [hstep, ebind_ok, hdr, ebind_ok]
    · intro j hj hemp
      cases j with
      | zero =>
        have h0 : pageStep W H idx e = .ok (fallbackSlide W H, [idx + 1]) :=
          pageStep_empty W H idx e (by simpa using hemp)
        rw [h0] at hstep
        have hr : r = (fallbackSlide W H, [idx + 1]) := (Except.ok.inj hstep).symm
        subst hr
        constructor
        · rfl
        · simp
      | succ j' =>
        have hj' : j' < rest.length := by simpa using hj
        obtain ⟨hg1, hg2⟩ := hget j' hj' (by simpa using hemp)
        constructor
        · simpa using hg1
        · have hidx : idx + 1 + j' + 1 = idx + (j' + 1) + 1 := by omega
          rw [hidx] at hg2
          simp [hg2]

/-! ## Run texts emitted by the line loop -/

theorem ebind_err {ε α β : Type} (e : ε) (f : α → Except ε β) :
    (Except.error e >>= f : Except ε β) = .error e := rfl

theorem mkRun_text (line : String) (st et : JVal) (r : TRun)
    (h : mkRun line st et = .ok r) : r.text = line := by
  unfold mkRun at h
  cases h1 : jGetE st "font_size" (.jnum (.int 18)) with
  | error e => rw [h1, ebind_err] at h; cases h
  | ok fsJ =>
    rw [h1, ebind_ok] at h
    cases h2 : resolveFontSize fsJ et with
    | error e => rw [h2, ebind_err] at h; cases h
    | ok size =>
      rw [h2, ebind_ok] at h
      cases h3 : jGetE st "font_color" (.jstr "#000000") with
      | error e => rw [h3, ebind_err] at h; cases h
      | ok fcJ =>
        rw [h3, ebind_ok] at h
        cases h4 : hex_to_rgbJ fcJ with
        | error e => rw [h4, ebind_err] at h; cases h
        | ok rgb0 =>
          rw [h4, ebind_ok] at h
          cases h5 : rgbColorE rgb0 with
          | error e => rw [h5, ebind_err] at h; cases h
          | ok rgb =>
            rw [h5, ebind_ok] at h
            cases h6 : jGetE st "bold" (.jbool false) with
            | error e => rw [h6, ebind_err] at h; cases h
            | ok boldJ =>
              rw [h6, ebind_ok] at h
              cases h7 : asFlagOpt (if pyTruthy boldJ then boldJ
                  else .jbool (pyEqStr et "title" || pyEqStr et "heading")) with
              | error e => rw [h7, ebind_err] at h; cases h
              | ok bold =>
                rw [h7, ebind_ok] at h
                cases h8 : jGetE st "italic" (.jbool false) with
                | error e => rw [h8, ebind_err] at h; cases h
                | ok italJ =>
                  rw [h8, ebind_ok] at h
                  cases h9 : asFlagOpt italJ with
                  | error e => rw [h9, ebind_err] at h; cases h
                  | ok ital =>
                    rw [h9, ebind_ok] at h
                    have := Except.ok.inj h
                    rw [← this]

theorem parasTexts_append (a b : List Para) :
    parasTexts (a ++ b) = parasTexts a ++ parasTexts b := by
  simp [parasTexts]

theorem pyEnumFrom_ge {α : Type} :
    ∀ (xs : List α) (k : ℕ) (pr : ℕ × α), pr ∈ pyEnumFrom k xs → k ≤ pr.1 := by
  intro xs
  induction xs with
  | nil => intro k pr h; simp [pyEnumFrom] at h
  | cons x rest ih =>
    intro k pr h
    simp only [pyEnumFrom, List.mem_cons] at h
    rcases h with rfl | h
    · simp
    · have := ih (k + 1) pr h
      omega

theorem pyEnumFrom_map {α β : Type} (f : α → β) :
    ∀ (xs : List α) (k : ℕ), (pyEnumFrom k xs).map (fun pr => f pr.2) = xs.map f := by
  intro xs
  induction xs with
  | nil => intro k; rfl
  | cons x rest ih =>
    intro k
    simp only [pyEnumFrom, List.map_cons, ih]

theorem lineLoop_append (st bl et : JVal) :
    ∀ (pairs : List (ℕ × String)) (acc ps : List Para),
      (∀ pr ∈ pairs, pr.1 ≠ 0) →
      lineLoop st bl et pairs acc = .ok ps →
      parasTexts ps = parasTexts acc ++
        (((pairs.map (fun pr => pyStripStr pr.2)).filter (fun l => l ≠ "")).map resolveLine) := by
  intro pairs
  induction pairs with
  | nil =>
    intro acc ps _ h
    have : acc = ps := Except.ok.inj h
    subst this
    simp
  | cons pr rest ih =>
    intro acc ps hnz h
    obtain ⟨i, rawLine⟩ := pr
    simp only [lineLoop] at h
    by_cases he : pyStripStr rawLine = ""
    · rw [if_pos he] at h
      have hrec := ih acc ps (fun x hx => hnz x (by simp [hx])) h
      simp only [List.map_cons, List.filter_cons, he]
      simpa using hrec
    · rw [if_neg he] at h
      cases ha : jGetE st "alignment" (.jstr "left") with
      | error e => rw [ha, ebind_err] at h; cases h
      | ok av =>
        rw [ha, ebind_ok] at h
        cases hl : resolveLevel bl et (isBulletLine (pyStripStr rawLine)) with
        | error e => rw [hl, ebind_err] at h; cases h
        | ok lv =>
          rw [hl, ebind_ok] at h
          cases hr : mkRun (resolveLine (pyStripStr rawLine)) st et with
          | error e => rw [hr, ebind_err] at h; cases h
          | ok run =>
            rw [hr, ebind_ok] at h
            have hi : i ≠ 0 := hnz (i, rawLine) (by simp)
            rw [if_neg hi] at h
            have hrec := ih (acc ++ [⟨resolveAlign av, lv, [run]⟩]) ps
              (fun x hx => hnz x (by simp [hx])) h
            have htext : run.text = resolveLine (pyStripStr rawLine) := mkRun_text _ _ _ _ hr
            rw [hrec, parasTexts_append]
            have hone : parasTexts [⟨resolveAlign av, lv, [run]⟩] = [run.text] := rfl
            rw [hone, htext]
            simp only [List.map_cons, List.filter_cons]
            rw [if_pos (by simpa using he)]
            simp

/-! ## Characterising `hex_to_rgb` -/

theorem digitVal_ne (c : Char) (v : ℕ) (h : digitVal? true c = some v) (d : Char)
    (hd : digitVal? true d = none) : c ≠ d := by
  intro e
  subst e
  rw [hd] at h
  cases h

theorem digitVal_notSpecial (c : Char) (v : ℕ) (h : digitVal? true c = some v) :
    isPyWS c = false ∧ c ≠ '+' ∧ c ≠ '-' ∧ c ≠ '_' ∧ c ≠ 'x' ∧ c ≠ 'X' ∧ c ≠ '#' := by
  refine ⟨?_, digitVal_ne c v h '+' (by decide), digitVal_ne c v h '-' (by decide),
    digitVal_ne c v h '_' (by decide), digitVal_ne c v h 'x' (by decide),
    digitVal_ne c v h 'X' (by decide), digitVal_ne c v h '#' (by decide)⟩
  unfold isPyWS
  have h1 := digitVal_ne c v h ' ' (by decide)
  have h2 := digitVal_ne c v h '\t' (by decide)
  have h3 := digitVal_ne c v h '\n' (by decide)
  have h4 := digitVal_ne c v h '\x0d' (by decide)
  have h5 := digitVal_ne c v h '\x0b' (by decide)
  have h6 := digitVal_ne c v h '\x0c' (by decide)
  simp [h1, h2, h3, h4, h5, h6]

theorem pyStripChars_pair (c d : Char) (hc : isPyWS c = false) (hd : isPyWS d = false) :
    pyStripChars [c, d] = [c, d] := by
  simp [pyStripChars, List.dropWhile_cons, hc, hd]

theorem pyIntCore_eval (hexBase : Bool) (base : ℕ) (cs0 : List Char) (c : Char)
    (rest : List Char) (h : pyStripChars cs0 = c :: rest) :
    pyIntCore hexBase base cs0 =
      if c = '+' then (parseUnsignedPy hexBase base rest).map Int.ofNat
      else if c = '-' then (parseUnsignedPy hexBase base rest).map (fun n => -(n : ℤ))
      else (parseUnsignedPy hexBase base (c :: rest)).map Int.ofNat := by
  unfold pyIntCore
  rw [h]

theorem parseUnsignedPy_two (hexBase : Bool) (base : ℕ) (c x : Char) (rest : List Char) :
    parseUnsignedPy hexBase base (c :: x :: rest) =
      if c = '0' ∧ hexBase = true ∧ (x = 'x' ∨ x = 'X') then
        (if rest.head? = some '_' then parseDigitRun hexBase base rest.tail
         else parseDigitRun hexBase base rest)
      else parseDigitRun hexBase base (c :: x :: rest) := rfl

theorem digitsLoop_single (hexBase : Bool) (base acc : ℕ) (d : Char) (v : ℕ)
    (hne : d ≠ '_') (hv : digitVal? hexBase d = some v) :
    digitsLoop hexBase base acc [d] = some (base * acc + v) := by
  simp only [digitsLoop]
  rw [if_neg hne, hv]

theorem parseDigitRun_pair (hexBase : Bool) (base : ℕ) (c d : Char) (vc vd : ℕ)
    (hc : digitVal? hexBase c = some vc) (hnd : d ≠ '_') (hd : digitVal? hexBase d = some vd) :
    parseDigitRun hexBase base [c, d] = some (base * vc + vd) := by
  simp only [parseDigitRun]
  rw [hc]
  exact digitsLoop_single hexBase base vc d vd hnd hd

theorem pyIntHex_pair (c d : Char) (vc vd : ℕ)
    (hc : digitVal? true c = some vc) (hd : digitVal? true d = some vd) :
    pyIntHex? [c, d] = some (Int.ofNat (16 * vc + vd)) := by
  obtain ⟨cws, cplus, cminus, _, _, _, _⟩ := digitVal_notSpecial c vc hc
  obtain ⟨dws, _, _, dus, dx, dX, _⟩ := digitVal_notSpecial d vd hd
  unfold pyIntHex?
  rw [pyIntCore_eval true 16 [c, d] c [d] (pyStripChars_pair c d cws dws)]
  rw [if_neg cplus, if_neg cminus]
  rw [parseUnsignedPy_two]
  rw [if_neg (fun hcond => hcond.2.2.elim dx dX)]
  rw [parseDigitRun_pair true 16 c d vc vd hc dus hd]
  rfl

/-! ## Evaluation lemmas for the extractor loop -/

theorem runAttempts_success (respond : String → ℕ → ApiOutcome) (m : String) (attempt : ℕ)
    (restAtt : List ℕ) (d : JVal) (h : respond m attempt = .success d) :
    runAttempts respond m (attempt :: restAtt) = ([.call m attempt], some (some d)) := by
  simp only [runAttempts]
  rw [h]

theorem runAttempts_badJSON (respond : String → ℕ → ApiOutcome) (m : String) (attempt : ℕ)
    (restAtt : List ℕ) (h : respond m attempt = .badJSON) :
    runAttempts respond m (attempt :: restAtt) = ([.call m attempt], some none) := by
  simp only [runAttempts]
  rw [h]

theorem runAttempts_otherError (respond : String → ℕ → ApiOutcome) (m : String) (attempt : ℕ)
    (restAtt : List ℕ) (h : respond m attempt = .otherError) :
    runAttempts respond m (attempt :: restAtt) = ([.call m attempt], none) := by
  simp only [runAttempts]
  rw [h]

theorem runAttempts_rateLimit (respond : String → ℕ → ApiOutcome) (m : String) (attempt : ℕ)
    (restAtt : List ℕ) (h : respond m attempt = .rateLimit) :
    runAttempts respond m (attempt :: restAtt) =
      (.call m attempt :: .wait (15 * (attempt + 1)) :: (runAttempts respond m restAtt).1,
        (runAttempts respond m restAtt).2) := by
  simp only [runAttempts]
  rw [h]

theorem runModels_cons_ret (respond : String → ℕ → ApiOutcome) (m : String) (ms : List String)
    (evs : List Event) (r : Option JVal)
    (h : runAttempts respond m (List.range max_retries) = (evs, some r)) :
    runModels respond (m :: ms) = (evs, r) := by
  simp only [runModels]
  rw [h]

theorem runModels_cons_next (respond : String → ℕ → ApiOutcome) (m : String) (ms : List String)
    (evs : List Event) (h : runAttempts respond m (List.range max_retries) = (evs, none)) :
    runModels respond (m :: ms) = (evs ++ (runModels respond ms).1, (runModels respond ms).2) := by
  simp only [runModels]
  rw [h]

theorem range_max_retries : List.range max_retries = [0, 1, 2] := rfl

/-! ## Maximal-run lemmas for bullet stripping -/

theorem takeWhile_all_mem (p : Char → Bool) :
    ∀ l : List Char, (l.takeWhile p).all p = true := by
  intro l
  induction l with
  | nil => rfl
  | cons c rest ih =>
    by_cases hc : p c = true
    · simp [List.takeWhile_cons, hc, ih]
    · simp [List.takeWhile_cons, hc]

theorem drop_length_takeWhile (p : Char → Bool) :
    ∀ l : List Char, l.drop (l.takeWhile p).length = l.dropWhile p := by
  intro l
  induction l with
  | nil => rfl
  | cons c rest ih =>
    by_cases hc : p c = true
    · simp [List.takeWhile_cons, List.dropWhile_cons, hc, ih]
    · simp [List.takeWhile_cons, List.dropWhile_cons, hc]

theorem get_length_takeWhile (p : Char → Bool) :
    ∀ (l : List Char) (c : Char), l.get? (l.takeWhile p).length = some c → p c = false := by
  intro l
  induction l with
  | nil => intro c h; simp at h
  | cons a rest ih =>
    intro c h
    by_cases ha : p a = true
    · rw [List.takeWhile_cons, if_pos ha] at h
      simp only [List.length_cons, List.get?_cons_succ] at h
      exact ih c h
    · rw [List.takeWhile_cons, if_neg ha] at h
      simp only [List.length_nil, List.get?_cons_zero, Option.some.injEq] at h
      rw [← h]
      simpa using ha

theorem take_length_takeWhile (p : Char → Bool) :
    ∀ l : List Char, l.take (l.takeWhile p).length = l.takeWhile p := by
  intro l
  induction l with
  | nil => rfl
  | cons c rest ih =>
    by_cases hc : p c = true
    · simp [List.takeWhile_cons, hc, ih]
    · simp [List.takeWhile_cons, hc]

/-! ## Claims -/

/-- Claim C1 (confirmed): whenever, on some model `m`, the attempts so far
were rate-limited and attempt `a` yields a structurally invalid (non-JSON)
response, the extractor returns the failure signal for the page immediately:
the trace ends with the call of attempt `a`, attempt `a+1` is never made on
the same model, no later model in the fallback list is consulted, and the
overall result is the failure signal `none`. -/
theorem c1_json_parse_terminal (respond : String → ℕ → ApiOutcome) (m : String)
    (ms : List String) (a : ℕ) (ha : a < max_retries)
    (hpre : ∀ j, j < a → respond m j = .rateLimit)
    (hbad : respond m a = .badJSON) :
    runModels respond (m :: ms) = (rlPrefixTrace m a, none) := by
  have ha3 : a < 3 := ha
  interval_cases a
  · have h0 : runAttempts respond m (List.range max_retries) = ([.call m 0], some none) := by
      rw [range_max_retries]
      exact runAttempts_badJSON respond m 0 [1, 2] hbad
    exact runModels_cons_ret respond m ms [.call m 0] none h0
  · have h0 : runAttempts respond m (List.range max_retries) =
        ([.call m 0, .wait 15, .call m 1], some none) := by
      rw [range_max_retries]
      rw [runAttempts_rateLimit respond m 0 [1, 2] (hpre 0 (by omega))]
      rw [runAttempts_badJSON respond m 1 [2] hbad]
    exact runModels_cons_ret respond m ms [.call m 0, .wait 15, .call m 1] none h0
  · have h0 : runAttempts respond m (List.range max_retries) =
        ([.call m 0, .wait 15, .call m 1, .wait 30, .call m 2], some none) := by
      rw [range_max_retries]
      rw [runAttempts_rateLimit respond m 0 [1, 2] (hpre 0 (by omega))]
      rw [runAttempts_rateLimit respond m 1 [2] (hpre 1 (by omega))]
      rw [runAttempts_badJSON respond m 2 [] hbad]
    exact runModels_cons_ret respond m ms
      [.call m 0, .wait 15, .call m 1, .wait 30, .call m 2] none h0

/-- Witness for C1 at a concrete oracle: a malformed response on the very
first attempt ends the run at once with the failure signal. -/
theorem c1_json_parse_terminal_witness :
    runModels (fun _ _ => ApiOutcome.badJSON)
        ("gemini-2.5-flash-lite" :: ["gemini-2.5-flash", "gemini-2.0-flash"]) =
      (rlPrefixTrace "gemini-2.5-flash-lite" 0, none) :=
  c1_json_parse_terminal (fun _ _ => ApiOutcome.badJSON) "gemini-2.5-flash-lite"
    ["gemini-2.5-flash", "gemini-2.0-flash"] 0 (by decide)
    (fun j hj => absurd hj (by omega)) rfl

/-- Counterexample to claim C2 as stated: with a structurally invalid
response from the first model and a second model that would succeed, the
extractor does not advance to the second model (its call never appears in
the trace) and returns the failure signal instead of the success. -/
theorem c2_counterexample :
    (analyze_slide_with_gemini
        (fun mdl _ => if mdl = "gemini-2.5-flash" then .success (.jobj []) else .badJSON)).2
      = none ∧
    ∀ a, Event.call "gemini-2.5-flash" a ∉
      (analyze_slide_with_gemini
        (fun mdl _ => if mdl = "gemini-2.5-flash" then .success (.jobj []) else .badJSON)).1 := by
  have h : analyze_slide_with_gemini
      (fun mdl _ => if mdl = "gemini-2.5-flash" then .success (.jobj []) else .badJSON) =
      ([.call "gemini-2.5-flash-lite" 0], none) := rfl
  constructor
  · rw [h]
  · intro a
    rw [h]
    intro hmem
    simp only [List.mem_singleton] at hmem
    injection hmem with h1 h2
    exact absurd h1 (by decide)

/-- Claim C2 (amended): given a structurally invalid (non-JSON) response on
the first attempt of the first model, the extractor returns the failure
signal for the page immediately — it neither uses the remaining retries of
the first model nor attempts any later model. -/
theorem c2_first_model_terminal (respond : String → ℕ → ApiOutcome)
    (h : respond "gemini-2.5-flash-lite" 0 = .badJSON) :
    analyze_slide_with_gemini respond = ([.call "gemini-2.5-flash-lite" 0], none) := by
  unfold analyze_slide_with_gemini gemini_models
  have h0 : runAttempts respond "gemini-2.5-flash-lite" (List.range max_retries) =
      ([.call "gemini-2.5-flash-lite" 0], some none) := by
    rw [range_max_retries]
    exact runAttempts_badJSON respond "gemini-2.5-flash-lite" 0 [1, 2] h
  exact runModels_cons_ret respond "gemini-2.5-flash-lite"
    ["gemini-2.5-flash", "gemini-2.0-flash"] [.call "gemini-2.5-flash-lite" 0] none h0

/-- Witness for the amended C2 at a concrete oracle. -/
theorem c2_first_model_terminal_witness :
    analyze_slide_with_gemini (fun _ _ => ApiOutcome.badJSON) =
      ([.call "gemini-2.5-flash-lite" 0], none) :=
  c2_first_model_terminal (fun _ _ => ApiOutcome.badJSON) rfl

/-- Claim C8 (confirmed): with rate-limit errors on the first two attempts
of a model and success on the third, the extractor waits 15 s after attempt
1 and 30 s after attempt 2, retries the same model each time, and returns
the successful result; with any other error on an attempt, it abandons the
model immediately (one call, no wait) and advances to the next model. -/
theorem c8_retry_backoff (respond respond' : String → ℕ → ApiOutcome) (m : String)
    (ms : List String) (d : JVal)
    (h0 : respond m 0 = .rateLimit) (h1 : respond m 1 = .rateLimit)
    (h2 : respond m 2 = .success d) (g0 : respond' m 0 = .otherError) :
    runModels respond (m :: ms) =
      ([.call m 0, .wait 15, .call m 1, .wait 30, .call m 2], some d) ∧
    runModels respond' (m :: ms) =
      (.call m 0 :: (runModels respond' ms).1, (runModels respond' ms).2) := by
  constructor
  · have hA : runAttempts respond m (List.range max_retries) =
        ([.call m 0, .wait 15, .call m 1, .wait 30, .call m 2], some (some d)) := by
      rw [range_max_retries]
      rw [runAttempts_rateLimit respond m 0 [1, 2] h0]
      rw [runAttempts_rateLimit respond m 1 [2] h1]
      rw [runAttempts_success respond m 2 [] d h2]
    exact runModels_cons_ret respond m ms
      [.call m 0, .wait 15, .call m 1, .wait 30, .call m 2] (some d) hA
  · have hB : runAttempts respond' m (List.range max_retries) = ([.call m 0], none) := by
      rw [range_max_retries]
      exact runAttempts_otherError respond' m 0 [1, 2] g0
    exact runModels_cons_next respond' m ms [.call m 0] hB

/-- Witness for C8 at concrete oracles. -/
theorem c8_retry_backoff_witness :
    runModels (fun _ a => if a = 0 then ApiOutcome.rateLimit
        else if a = 1 then ApiOutcome.rateLimit else ApiOutcome.success (.jobj []))
        ("gemini-2.5-flash-lite" :: ["gemini-2.5-flash", "gemini-2.0-flash"]) =
      ([.call "gemini-2.5-flash-lite" 0, .wait 15, .call "gemini-2.5-flash-lite" 1, .wait 30,
        .call "gemini-2.5-flash-lite" 2], some (.jobj [])) ∧
    runModels (fun _ _ => ApiOutcome.otherError)
        ("gemini-2.5-flash-lite" :: ["gemini-2.5-flash", "gemini-2.0-flash"]) =
      (.call "gemini-2.5-flash-lite" 0 ::
        (runModels (fun _ _ => ApiOutcome.otherError) ["gemini-2.5-flash", "gemini-2.0-flash"]).1,
        (runModels (fun _ _ => ApiOutcome.otherError)
          ["gemini-2.5-flash", "gemini-2.0-flash"]).2) :=
  c8_retry_backoff
    (fun _ a => if a = 0 then ApiOutcome.rateLimit
      else if a = 1 then ApiOutcome.rateLimit else ApiOutcome.success (.jobj []))
    (fun _ _ => ApiOutcome.otherError) "gemini-2.5-flash-lite"
    ["gemini-2.5-flash", "gemini-2.0-flash"] (.jobj []) rfl rfl rfl rfl

/-- Counterexample to claim C3 as stated: with `x_percent = 150` the
computed left coordinate is the unclamped scaling (beyond the right slide
edge), not the value the claimed [0,100] clamping would give. -/
theorem c3_counterexample :
    (rawBox (.int 150) (.int 5) (.int 90) (.int 15) 9144000 6858000).left = 13716000 ∧
    (specClampBox (.int 150) (.int 5) (.int 90) (.int 15) 9144000 6858000).left = 9144000 ∧
    (13716000 : ℤ) ≠ 9144000 ∧ (9144000 : ℤ) < 13716000 := by
  decide

/-- Claim C3 (amended): the reconstructor does not clamp the position
percentages into [0,100]; out-of-range values pass through the scaling
(diverging from the clamped computation, e.g. at `x_percent = 150`), and
only the resulting coordinates are post-adjusted, which still keeps the box
origin nonnegative and the box end within the slide. -/
theorem c3_no_percent_clamp :
    (∀ (xp yp wp hp : PyQ) (W H : ℤ),
      0 ≤ (rawBox xp yp wp hp W H).left ∧ 0 ≤ (rawBox xp yp wp hp W H).top ∧
      (rawBox xp yp wp hp W H).left + (rawBox xp yp wp hp W H).width ≤ W ∧
      (rawBox xp yp wp hp W H).top + (rawBox xp yp wp hp W H).height ≤ H) ∧
    (∃ xp : PyQ, (rawBox xp (.int 5) (.int 90) (.int 15) 9144000 6858000).left ≠
      (specClampBox xp (.int 5) (.int 90) (.int 15) 9144000 6858000).left) := by
  constructor
  · intro xp yp wp hp W H
    unfold rawBox
    dsimp only
    split_ifs <;> refine ⟨by omega, by omega, by omega, by omega⟩
  · exact ⟨.int 150, by decide⟩

/-- Counterexample to claim C4 as stated: an element whose scaled width is
about 1.1 inch (1005840 EMU) keeps that width — the enforced minimum is 1
inch (bumped to 2 inches only below that), so the final box can be well
under the claimed ~2 inch minimum. -/
theorem c4_counterexample :
    rawBox (.int 5) (.int 5) (.int 11) (.int 15) 9144000 6858000 =
      ⟨457200, 342900, 1005840, 1028700⟩ ∧
    (1005840 : ℤ) < 1828800 := by
  decide

/-- Claim C4 (amended): every computed box has a nonnegative origin and
never extends past the right or bottom slide edge; a width below 1 inch
(914400 EMU) is bumped to 2 inches and a height below 0.4 inch (365760 EMU)
to 0.6 inch before the edge clamp, so the final width/height can drop below
those minimums only when the edge clamp fired, in which case the box ends
exactly 0.2 inch (182880 EMU) before the far edge. -/
theorem c4_box_bounds (xp yp wp hp : PyQ) (W H : ℤ) :
    0 ≤ (rawBox xp yp wp hp W H).left ∧ 0 ≤ (rawBox xp yp wp hp W H).top ∧
    (rawBox xp yp wp hp W H).left + (rawBox xp yp wp hp W H).width ≤ W ∧
    (rawBox xp yp wp hp W H).top + (rawBox xp yp wp hp W H).height ≤ H ∧
    ((rawBox xp yp wp hp W H).width < 914400 →
      (rawBox xp yp wp hp W H).left + (rawBox xp yp wp hp W H).width = W - 182880) ∧
    ((rawBox xp yp wp hp W H).height < 365760 →
      (rawBox xp yp wp hp W H).top + (rawBox xp yp wp hp W H).height = H - 182880) := by
  unfold rawBox
  dsimp only
  split_ifs <;> refine ⟨by omega, by omega, by omega, by omega, by omega, by omega⟩

/-- Counterexample to claim C5 as stated: a slide content whose single
element carries `font_size: null` makes the reconstructor raise a
`TypeError` (at Python's `min(60, None)`), so an exception does escape the
reconstruction step. -/
theorem c5_counterexample :
    create_slide_from_ai_data c5FailingInput 9144000 6858000 true = .error .typeError ∧
    ∀ s : Slide, create_slide_from_ai_data c5FailingInput 9144000 6858000 true ≠ .ok s := by
  refine ⟨by decide, fun s h => ?_⟩
  rw [show create_slide_from_ai_data c5FailingInput 9144000 6858000 true =
    .error .typeError from by decide] at h
  cases h

/-- Claim C5 (amended): on slide content whose present fields have the
expected runtime shapes (`text` a string; `position` an object with numeric
percentages; `style` an object with a numeric/bool/string `font_size`,
bool-or-null flags, and a color string whose resolution stays in byte
range; `bullet_level` a bool or a small integer), the reconstructor raises
no error: malformed values of those shapes degrade to the documented
defaults and a slide is always produced. -/
theorem c5_wellformed_total (sd : JVal) (W H : ℤ) (b : Bool) (h : sdWFb sd = true) :
    ∃ s, create_slide_from_ai_data sd W H b = .ok s :=
  create_slide_wf_ok sd W H b h

/-- Witness for the amended C5 on a concrete well-formed slide content. -/
theorem c5_wellformed_total_witness :
    sdWFb c5WitnessInput = true ∧
    ∃ s, create_slide_from_ai_data c5WitnessInput 9144000 6858000 false = .ok s :=
  ⟨by decide, c5_wellformed_total c5WitnessInput 9144000 6858000 false (by decide)⟩

/-- Claim C9 (confirmed): when a page's extraction returns no content or
content with an empty `elements` array (and no page makes the driver
raise), the driver records that page's 1-based number in the failure list,
the slide at that position is the image-only full-bleed fallback slide, and
the run still produces exactly one slide per page. -/
theorem c9_driver_fallback (extracts : List (Option JVal)) (W H : ℤ)
    (hsafe : ∀ e ∈ extracts, pageSafeb e = true) (i : ℕ) (hi : i < extracts.length)
    (hfail : extractEmpty (extracts.get ⟨i, hi⟩)) :
    ∃ slides fails, create_pptx_from_pdf_with_ai extracts W H = .ok (slides, fails) ∧
      slides.length = extracts.length ∧ (i + 1) ∈ fails ∧
      slides.get? i = some (fallbackSlide W H) := by
  obtain ⟨ss, fs, hdr, hlen, hget⟩ := drivePages_ok W H extracts 0 hsafe
  obtain ⟨hg1, hg2⟩ := hget i hi hfail
  exact ⟨ss, fs, hdr, hlen, by simpa using hg2, hg1⟩

/-- Witness for C9: a 5-page run whose page 3 has an empty `elements` array
completes with 5 slides, page 3 in the failure list, and the image-only
fallback slide in position 3. -/
theorem c9_driver_fallback_witness :
    ∃ slides fails, create_pptx_from_pdf_with_ai c9Extracts 9144000 6858000 =
        .ok (slides, fails) ∧
      slides.length = 5 ∧ 3 ∈ fails ∧
      slides.get? 2 = some (fallbackSlide 9144000 6858000) := by
  obtain ⟨s, f, h1, h2, h3, h4⟩ :=
    c9_driver_fallback c9Extracts 9144000 6858000 (by decide) 2 (by decide)
      (Or.inr ⟨[("elements", .jarr [])], rfl, rfl⟩)
  exact ⟨s, f, h1, by simpa using h2, h3, h4⟩

/-- Counterexample to claim C6 as stated: an element whose text is a bullet
glyph plus whitespace is not dropped — the line loop emits a paragraph
carrying one run with empty text. -/
theorem c6_counterexample :
    (elemParas "• " (.jobj []) (.jnum (.int 0)) (.jstr "body")).map parasTexts = .ok [""] ∧
    ([""] : List String) ≠ [] := by
  refine ⟨by decide, by decide⟩

/-- Claim C6 (amended): the run texts the line loop emits are exactly the
lines of the element text that are nonblank after the initial strip, each
transformed by bullet resolution; a line blank before bullet stripping is
dropped, while a line consisting only of bullet characters survives as a
paragraph whose run text is empty. -/
theorem c6_run_texts (text : String) (st bl et : JVal) (ps : List Para)
    (h : elemParas text st bl et = .ok ps) :
    parasTexts ps =
      (((pySplitLines text).map pyStripStr).filter (fun l => l ≠ "")).map resolveLine := by
  unfold elemParas at h
  cases hsp : pySplitLines text with
  | nil =>
    rw [hsp] at h
    simp only [pyEnumFrom, lineLoop] at h
    have hps : [defaultPara] = ps := Except.ok.inj h
    rw [← hps]
    rfl
  | cons l0 rest =>
    rw [hsp] at h
    have henum : pyEnumFrom 0 (l0 :: rest) = (0, l0) :: pyEnumFrom 1 rest := rfl
    rw [henum] at h
    simp only [lineLoop] at h
    by_cases he : pyStripStr l0 = ""
    · rw [if_pos he] at h
      have hres := lineLoop_append st bl et (pyEnumFrom 1 rest) [defaultPara] ps
        (fun pr hpr => by have := pyEnumFrom_ge rest 1 pr hpr; omega) h
      rw [hres]
      have hm : (pyEnumFrom 1 rest).map (fun pr => pyStripStr pr.2) = rest.map pyStripStr :=
        pyEnumFrom_map pyStripStr rest 1
      rw [hm]
      simp [parasTexts, defaultPara, List.filter_cons, he]
    · rw [if_neg he] at h
      cases ha : jGetE st "alignment" (.jstr "left") with
      | error e => rw [ha, ebind_err] at h; cases h
      | ok av =>
        rw [ha, ebind_ok] at h
        cases hl : resolveLevel bl et (isBulletLine (pyStripStr l0)) with
        | error e => rw [hl, ebind_err] at h; cases h
        | ok lv =>
          rw [hl, ebind_ok] at h
          cases hr : mkRun (resolveLine (pyStripStr l0)) st et with
          | error e => rw [hr, ebind_err] at h; cases h
          | ok run =>
            rw [hr, ebind_ok] at h
            rw [if_pos trivial] at h
            have hset : ([defaultPara].set 0 (⟨resolveAlign av, lv, [run]⟩ : Para)) =
                [⟨resolveAlign av, lv, [run]⟩] := rfl
            rw [hset] at h
            have hres := lineLoop_append st bl et (pyEnumFrom 1 rest)
              [⟨resolveAlign av, lv, [run]⟩] ps
              (fun pr hpr => by have := pyEnumFrom_ge rest 1 pr hpr; omega) h
            rw [hres]
            have hm : (pyEnumFrom 1 rest).map (fun pr => pyStripStr pr.2) =
                rest.map pyStripStr := pyEnumFrom_map pyStripStr rest 1
            rw [hm]
            have htext : run.text = resolveLine (pyStripStr l0) := mkRun_text _ _ _ _ hr
            have hone : parasTexts [(⟨resolveAlign av, lv, [run]⟩ : Para)] = [run.text] := rfl
            rw [hone, htext]
            simp only [List.map_cons, List.filter_cons]
            rw [if_pos (by simpa using he)]
            simp

/-- Witness for the amended C6: a three-line text whose middle line is
whitespace-only yields exactly two paragraphs, with the bullet prefix of the
last line stripped. -/
theorem c6_run_texts_witness :
    ∃ ps, elemParas "hello\n \n- world" (.jobj []) (.jnum (.int 0)) (.jstr "body") = .ok ps ∧
      parasTexts ps = ["hello", "world"] := by
  have hps : elemParas "hello\n \n- world" (.jobj []) (.jnum (.int 0)) (.jstr "body") =
      .ok [⟨.left, 0, [⟨"hello", .int 18, (0, 0, 0), some false, some false, "Arial"⟩]⟩,
        ⟨.left, 0, [⟨"world", .int 18, (0, 0, 0), some false, some false, "Arial"⟩]⟩] := by
    decide
  refine ⟨_, hps, ?_⟩
  rw [c6_run_texts _ _ _ _ _ hps]
  decide

/-- Counterexample to claim C7 as stated: `"+1+2+3"` and `"##123456"` are
not 6 hex digits after removing a leading `#`, yet color resolution returns
non-black triples (Python's `int(·, 16)` accepts signs and `lstrip('#')`
removes every leading `#`). -/
theorem c7_counterexample :
    hex_to_rgb "+1+2+3" = (1, 2, 3) ∧ isSixHexAfterOneHash "+1+2+3" = false ∧
    hex_to_rgb "##123456" = (18, 52, 86) ∧ isSixHexAfterOneHash "##123456" = false ∧
    ((1, 2, 3) : ℤ × ℤ × ℤ) ≠ (0, 0, 0) ∧ ((18, 52, 86) : ℤ × ℤ × ℤ) ≠ (0, 0, 0) := by
  decide

/-- Claim C7 (amended): a string of exactly 6 hexadecimal digits resolves to
its standard RGB triple; and the resolution returns black whenever, after
stripping all leading `#` characters, the remainder is not 6 characters
whose 2-character pairs all parse under Python's lenient `int(·, 16)`. -/
theorem c7_hex_resolution (s : String) :
    (isHex6b s = true → hex_to_rgb s = hexTriple s) ∧
    (pyLenientHex6 s = false → hex_to_rgb s = (0, 0, 0)) := by
  constructor
  · intro h6
    simp only [isHex6b, Bool.and_eq_true, decide_eq_true_eq, List.all_eq_true] at h6
    obtain ⟨hlen, hall⟩ := h6
    unfold hex_to_rgb hexTriple
    generalize hG : s.toList = l at hlen hall ⊢
    obtain ⟨c1, c2, c3, c4, c5, c6, rfl⟩ :
        ∃ a b c d e f, l = [a, b, c, d, e, f] := by
      rcases l with _ | ⟨a, _ | ⟨b, _ | ⟨c, _ | ⟨d, _ | ⟨e, _ | ⟨f, _ | ⟨g, t⟩⟩⟩⟩⟩⟩⟩ <;>
        first
        | exact ⟨_, _, _, _, _, _, rfl⟩
        | simp at hlen
    obtain ⟨v1, hv1⟩ := Option.isSome_iff_exists.mp (hall c1 (by simp))
    obtain ⟨v2, hv2⟩ := Option.isSome_iff_exists.mp (hall c2 (by simp))
    obtain ⟨v3, hv3⟩ := Option.isSome_iff_exists.mp (hall c3 (by simp))
    obtain ⟨v4, hv4⟩ := Option.isSome_iff_exists.mp (hall c4 (by simp))
    obtain ⟨v5, hv5⟩ := Option.isSome_iff_exists.mp (hall c5 (by simp))
    obtain ⟨v6, hv6⟩ := Option.isSome_iff_exists.mp (hall c6 (by simp))
    have hc1 : c1 ≠ '#' := (digitVal_notSpecial c1 v1 hv1).2.2.2.2.2.2
    have hdw : List.dropWhile (fun c => c = '#') [c1, c2, c3, c4, c5, c6] =
        [c1, c2, c3, c4, c5, c6] := by
      rw [List.dropWhile_cons, if_neg (by simpa using hc1)]
    rw [if_neg (by simp)]
    rw [hdw]
    rw [if_pos (by simp)]
    rw [show ([c1, c2, c3, c4, c5, c6].take 2 : List Char) = [c1, c2] from rfl]
    rw [show (([c1, c2, c3, c4, c5, c6].drop 2).take 2 : List Char) = [c3, c4] from rfl]
    rw [show ([c1, c2, c3, c4, c5, c6].drop 4 : List Char) = [c5, c6] from rfl]
    rw [pyIntHex_pair c1 c2 v1 v2 hv1 hv2, pyIntHex_pair c3 c4 v3 v4 hv3 hv4,
      pyIntHex_pair c5 c6 v5 v6 hv5 hv6]
    simp only [hexDigitVal, hv1, hv2, hv3, hv4, hv5, hv6, Option.getD_some]
    rfl
  · intro hlen
    unfold hex_to_rgb
    by_cases hnil : s.toList = []
    · rw [if_pos hnil]
    · rw [if_neg hnil]
      by_cases hl6 : (s.toList.dropWhile (· = '#')).length = 6
      · rw [if_pos hl6]
        rcases hp1 : pyIntHex? ((s.toList.dropWhile (· = '#')).take 2) with _ | r
        · rfl
        · rcases hp2 : pyIntHex? (((s.toList.dropWhile (· = '#')).drop 2).take 2) with _ | g
          · rfl
          · rcases hp3 : pyIntHex? ((s.toList.dropWhile (· = '#')).drop 4) with _ | b
            · rfl
            · exfalso
              have hT : pyLenientHex6 s = true := by
                unfold pyLenientHex6
                rw [hp1, hp2, hp3]
                simp only [Option.isSome_some, Bool.and_true, Bool.true_and, decide_eq_true_eq]
                simpa using hl6
              rw [hT] at hlen
              cases hlen
      · rw [if_neg hl6]

/-- Witness for the amended C7 at concrete inputs: a pure 6-hex-digit string
resolves to its triple, and a clearly invalid string resolves to black. -/
theorem c7_hex_resolution_witness :
    hex_to_rgb "1a2B3c" = (26, 43, 60) ∧ hex_to_rgb "zz" = (0, 0, 0) := by
  constructor
  · have h := (c7_hex_resolution "1a2B3c").1 (by decide)
    rw [h]
    decide
  · exact (c7_hex_resolution "zz").2 (by decide)

/-- Claim C10 (confirmed): for a line that starts with a bullet glyph, the
reconstructor strips the entire maximal leading run of characters from
`{•, -, *, space}` — the stripped prefix is such a run, the first kept
character (if any) is outside the set — and then strips whitespace; in
particular `"- -5 degrees"` is emitted as `"5 degrees"`. -/
theorem c10_bullet_strip (l : String) (h : isBulletLine l = true) :
    (∃ n, 1 ≤ n ∧
      ((l.toList.take n).all (fun c => c ∈ bulletChars) = true) ∧
      (∀ c, l.toList.get? n = some c → c ∉ bulletChars) ∧
      resolveLine l = pyStripStr (String.mk (l.toList.drop n))) ∧
    resolveLine "- -5 degrees" = "5 degrees" := by
  refine ⟨⟨(l.toList.takeWhile (fun c => decide (c ∈ bulletChars))).length, ?_, ?_, ?_, ?_⟩,
    by decide⟩
  · unfold isBulletLine at h
    cases hl : l.toList with
    | nil => rw [hl] at h; cases h
    | cons c rest =>
      rw [hl] at h
      have h' : (c = '•' || c = '-' || c = '*') = true := h
      have hmem : decide (c ∈ bulletChars) = true := by
        rcases (by simpa using h' : (c = '•' ∨ c = '-') ∨ c = '*') with (rfl | rfl) | rfl <;>
          decide
      rw [List.takeWhile_cons, if_pos hmem]
      simp
  · rw [take_length_takeWhile]
    exact takeWhile_all_mem _ _
  · intro c hg
    exact of_decide_eq_false
      (get_length_takeWhile (fun c => decide (c ∈ bulletChars)) l.toList c hg)
  · unfold resolveLine
    rw [if_pos h, drop_length_takeWhile]

/-- Witness for C10 at the concrete line from the claim. -/
theorem c10_bullet_strip_witness :
    (∃ n, 1 ≤ n ∧
      ((("- -5 degrees").toList.take n).all (fun c => c ∈ bulletChars) = true) ∧
      (∀ c, ("- -5 degrees").toList.get? n = some c → c ∉ bulletChars) ∧
      resolveLine "- -5 degrees" =
        pyStripStr (String.mk (("- -5 degrees").toList.drop n))) ∧
    resolveLine "- -5 degrees" = "5 degrees" :=
  c10_bullet_strip "- -5 degrees" (by decide)
